import Mathlib

/-!
# Windows toast notifier: identifier registry and callback dispatch

A shallow embedding of `notifier/notify_windows.go`.

* Go pointers `*Notification` are references (`Ref`) into an explicit heap.
* The package-level variables `initOnce`, `lib` and `notificationsByIDs`
  are fields of `World`.
* Calls that leave the process (the `wintoast` library, the updates registry,
  the log, `launchApp`, `SelectAction`) append an `Event` to `World.trace`;
  what they return is supplied by `Env` (initialization) and `NativeShow`
  (one `Show` call).
* A Go runtime panic is the `Result.panicked` outcome, carrying the state
  reached at the panic.
* Every call runs to completion before the next one starts, so the mutex of a
  `Notification` is not part of the state.
-/

namespace Notifier

/-- The Go type `NotificationID` (an `int64`); no arithmetic is done on it. -/
abbrev NotificationID := Int

/-- A `*Notification` pointer. -/
abbrev Ref := Nat

/-- One entry of `Notification.AvailableActions`. -/
structure Action where
  ID : String
  Text : String
deriving DecidableEq, Repr

/-- The fields of `Notification` that `notify_windows.go` reads or writes. -/
structure Notification where
  Title : String
  Message : String
  AvailableActions : List Action
  systemID : NotificationID
deriving DecidableEq, Repr

/-- A loaded `*wintoast.WinToast`; `none : Option WinToast` is the nil pointer. -/
structure WinToast where
  dllPath : String
deriving DecidableEq, Repr

/-- Observable calls made by the code, in program order. -/
inductive Event where
  | logErrorf (msg : String)
  | logWarningf (msg : String)
  | getDllPath
  | wintoastNew (dllPath : String)
  | libInit (appName company productName subProduct version : String)
  | setCallbacks
  | newNotification (title message : String)
  | setImage (path : String)
  | setSound (sound path : Nat)
  | addButton (text : String)
  | builderShow (buttons : List String)
  | builderDelete
  | hideNotification (id : Int)
  | launchApp
  | selectAction (n : Ref) (actionID : String)
deriving DecidableEq, Repr

/-- The `sync.Map` `notificationsByIDs`, keyed by `NotificationID`. -/
abbrev SyncMap := NotificationID → Option Ref

namespace SyncMap

/-- An empty `sync.Map`. -/
def empty : SyncMap := fun _ => none

/-- The method `sync.Map.Load`. -/
def Load (m : SyncMap) (k : NotificationID) : Option Ref := m k

/-- The method `sync.Map.Store`. -/
def Store (m : SyncMap) (k : NotificationID) (v : Ref) : SyncMap :=
  fun k' => if k' = k then some v else m k'

/-- The method `sync.Map.Delete`. -/
def Delete (m : SyncMap) (k : NotificationID) : SyncMap :=
  fun k' => if k' = k then none else m k'

/-- The method `sync.Map.LoadAndDelete`: the previous value, if any, and the map without
the key. -/
def LoadAndDelete (m : SyncMap) (k : NotificationID) : Option Ref × SyncMap :=
  (m k, m.Delete k)

end SyncMap

/-- Process state: the package variables, the heap of notifications and the trace. -/
structure World where
  initOnce : Bool
  lib : Option WinToast
  notificationsByIDs : SyncMap
  heap : Ref → Notification
  trace : List Event

/-- Append one event to the trace. -/
def World.emit (w : World) (e : Event) : World :=
  { w with trace := w.trace ++ [e] }

/-- Outcome of a call that may end in a Go runtime panic. -/
inductive Result where
  | returned (w : World)
  | panicked (w : World)

/-- The state at the end of a call, however it ended. -/
def Result.world : Result → World
  | .returned w => w
  | .panicked w => w

def appName : String := "Portmaster"
def company : String := "Safing ICS Technologies GmbH"
def productName : String := "Portmaster"
def subProduct : String := "notifier"

def SoundDefault : Nat := 0
def SoundSilent : Nat := 1
def SoundLoop : Nat := 2
def SoundPathDefault : Nat := 0

/-- What the surroundings answer during initialization. A Go `error` is an
`Option String`, `none` being `nil`. -/
structure Env where
  dataDir : String
  platformIdentifier : String → String
  registryGetFile : String → Except String String
  wintoastNew : String → Except String WinToast
  libInit : Option String
  setCallbacks : Option String
  version : String

/-- What the native side answers during one `Show`. -/
structure NativeShow where
  newNotification : Option String
  ensureAppIcon : Except String String
  setImage : Option String
  setSound : Option String
  addButton : Nat → Option String
  builderShow : Except String Int

/-- The function `getDllPath`. -/
def getDllPath (env : Env) : Except String String :=
  if env.dataDir = "" then
    .error "dataDir is empty"
  else
    match env.registryGetFile (env.platformIdentifier "notifier/portmaster-wintoast.dll") with
    | .error err => .error err
    | .ok path => .ok path

/-- The function literal passed to `initOnce.Do` in `getLib`. -/
def getLibOnce (env : Env) (w : World) : World :=
  let w := w.emit .getDllPath
  match getDllPath env with
  | .error err => w.emit (.logErrorf ("notify: failed to get dll path: " ++ err))
  | .ok dllPath =>
    let w := w.emit (.wintoastNew dllPath)
    match env.wintoastNew dllPath with
    | .error err => w.emit (.logErrorf ("notify: failed to load library: " ++ err))
    | .ok newLib =>
      let w := w.emit (.libInit appName company productName subProduct env.version)
      match env.libInit with
      | some err => w.emit (.logErrorf ("notify: failed to load library: " ++ err))
      | none =>
        let w := { w with lib := some newLib }
        let w := w.emit .setCallbacks
        match env.setCallbacks with
        | some err => w.emit (.logWarningf ("notify: failed to set callbacks: " ++ err))
        | none => w

/-- The function `getLib`: `initOnce.Do` runs its argument on the first call only. -/
def getLib (env : Env) (w : World) : World × Option WinToast :=
  let w := if w.initOnce then w else { getLibOnce env w with initOnce := true }
  (w, w.lib)

/-- A `*wintoast.NotificationBuilder`: the content and the buttons added so far. -/
structure NotificationBuilder where
  title : String
  message : String
  buttons : List String
deriving DecidableEq, Repr

/-- Modelled from the spec: the `wintoast` package is not among the sources. Per 4.2
step 2 and 3, an absent handle makes the operation fail with an error that `Show` logs,
and with a handle the builder is created from title and message unless the native call
fails. -/
def NewNotification (lib : Option WinToast) (o : Option String) (title message : String) :
    Except String NotificationBuilder :=
  match lib with
  | none => .error "wintoast: lib object was nil"
  | some _ =>
    match o with
    | some err => .error err
    | none => .ok { title := title, message := message, buttons := [] }

/-- Modelled from the spec: `NotificationBuilder.AddButton` of the absent `wintoast`
package. A successful call appends the button after those already added, so the native
side numbers the added buttons from 0 in the order they were added; a failed call adds
nothing. -/
def AddButton (b : NotificationBuilder) (text : String) (o : Option String) :
    NotificationBuilder × Option String :=
  match o with
  | none => ({ b with buttons := b.buttons ++ [text] }, none)
  | some err => (b, some err)

/-- Modelled from the spec: `WinToast.HideNotification` of the absent `wintoast` package.
With a handle the native hide is requested and answers `o`; an absent handle gives an
error. -/
def HideNotification (lib : Option WinToast) (o : Option String) (id : Int) (w : World) :
    World × Option String :=
  match lib with
  | none => (w, some "wintoast: lib object was nil")
  | some _ => (w.emit (.hideNotification id), o)

/-- Modelled from the spec: `Notification.SelectAction` is declared outside
`notify_windows.go`. It is the action-selection hook, invoked with the identifier of the
chosen action. -/
def SelectAction (n : Ref) (actionID : String) (w : World) : World :=
  w.emit (.selectAction n actionID)

/-- The loop `for _, action := range n.AvailableActions` of `Show`; `k` counts the calls
to `AddButton` made so far. -/
def addButtons (o : Nat → Option String) :
    List Action → Nat → NotificationBuilder → World → NotificationBuilder × World
  | [], _, b, w => (b, w)
  | action :: rest, k, b, w =>
    let w := w.emit (.addButton action.Text)
    match AddButton b action.Text (o k) with
    | (b, some err) =>
      addButtons o rest (k + 1) b (w.emit (.logWarningf ("notify: failed to add button: " ++ err)))
    | (b, none) => addButtons o rest (k + 1) b w

/-- The icon part of `Show`. -/
def setIcon (o : NativeShow) (w : World) : World :=
  match o.ensureAppIcon with
  | .ok iconLocation =>
    let w := w.emit (.setImage iconLocation)
    match o.setImage with
    | some err => w.emit (.logWarningf ("notify: failed set icon: " ++ err))
    | none => w
  | .error err => w.emit (.logWarningf ("notify: failed to write icon: " ++ err))

/-- The sound part of `Show`. -/
def setDefaultSound (o : NativeShow) (w : World) : World :=
  let w := w.emit (.setSound SoundDefault SoundPathDefault)
  match o.setSound with
  | some err => w.emit (.logWarningf ("notify: failed to set sound: " ++ err))
  | none => w

/-- The method `Notification.Show`. -/
def Show (env : Env) (o : NativeShow) (n : Ref) (w : World) : World :=
  let (w, lib) := getLib env w
  let w := w.emit (.newNotification (w.heap n).Title (w.heap n).Message)
  match NewNotification lib o.newNotification (w.heap n).Title (w.heap n).Message with
  | .error err => w.emit (.logErrorf ("notify: failed to create notification: " ++ err))
  | .ok builder =>
    let w := setIcon o w
    let w := setDefaultSound o w
    let (builder, w) := addButtons o.addButton (w.heap n).AvailableActions 0 builder w
    let w := w.emit (.builderShow builder.buttons)
    match o.builderShow with
    | .error err =>
      (w.emit (.logErrorf ("notify: failed to show notification: " ++ err))).emit .builderDelete
    | .ok id =>
      let w := { w with heap := Function.update w.heap n { w.heap n with systemID := id } }
      let w := { w with notificationsByIDs := w.notificationsByIDs.Store id n }
      w.emit .builderDelete

/-- The method `Notification.Cancel`. -/
def Cancel (env : Env) (hide : Option String) (n : Ref) (w : World) : World :=
  let (w, lib) := getLib env w
  let (w, _) := HideNotification lib hide (w.heap n).systemID w
  { w with notificationsByIDs := w.notificationsByIDs.Delete (w.heap n).systemID }

/-- Go slice indexing `s[i]` with a signed index: `none` is the runtime panic. -/
def index (s : List Action) (i : Int) : Option Action :=
  if 0 ≤ i then s.get? i.toNat else none

/-- The function `notificationActivatedCallback`. -/
def notificationActivatedCallback (id : Int) (actionIndex : Int) (w : World) : Result :=
  if actionIndex = -1 then
    let w := w.emit .launchApp
    .returned { w with notificationsByIDs := w.notificationsByIDs.Delete id }
  else
    match w.notificationsByIDs.LoadAndDelete id with
    | (none, m) => .returned { w with notificationsByIDs := m }
    | (some notification, m) =>
      let w := { w with notificationsByIDs := m }
      match index (w.heap notification).AvailableActions actionIndex with
      | none => .panicked w
      | some action => .returned (SelectAction notification action.ID w)

/-- The function `notificationDismissedCallback`. -/
def notificationDismissedCallback (id : Int) (reason : Int) (w : World) : World :=
  if reason = 0 then
    { w with notificationsByIDs := w.notificationsByIDs.Delete id }
  else
    w

/-- One call into the notifier: `Show` or `Cancel` from the application, or one of the two
callbacks from the native side. -/
inductive Op where
  | callShow (env : Env) (o : NativeShow) (n : Ref)
  | callCancel (env : Env) (hide : Option String) (n : Ref)
  | activated (id : Int) (actionIndex : Int)
  | dismissed (id : Int) (reason : Int)

/-- Run one call. -/
def step (w : World) : Op → Result
  | .callShow env o n => .returned (Show env o n w)
  | .callCancel env hide n => .returned (Cancel env hide n w)
  | .activated id actionIndex => notificationActivatedCallback id actionIndex w
  | .dismissed id reason => .returned (notificationDismissedCallback id reason w)

/-- Run calls one after the other; a panic ends the process. -/
def run : List Op → World → Result
  | [], w => .returned w
  | op :: ops, w =>
    match step w op with
    | .returned w' => run ops w'
    | .panicked w' => .panicked w'

/-- The state of a process that has not called anything yet: Go zero values. -/
def World.fresh (heap : Ref → Notification) : World :=
  { initOnce := false, lib := none, notificationsByIDs := SyncMap.empty, heap := heap, trace := [] }

/-- The first initialization step of `getLib` that fails, if any:
0 resolve the library path, 1 load the library, 2 identity initialization,
3 register the callbacks. -/
def failingStep (env : Env) : Option (Fin 4) :=
  match getDllPath env with
  | .error _ => some 0
  | .ok dllPath =>
    match env.wintoastNew dllPath with
    | .error _ => some 1
    | .ok _ =>
      match env.libInit with
      | some _ => some 2
      | none =>
        match env.setCallbacks with
        | some _ => some 3
        | none => none

/-- The events that are initialization steps of `getLib`. -/
def Event.isInitStep : Event → Bool
  | .getDllPath => true
  | .wintoastNew _ => true
  | .libInit _ _ _ _ _ => true
  | .setCallbacks => true
  | _ => false

/-- The events that are an invocation of `SelectAction`. -/
def Event.isSelectAction : Event → Bool
  | .selectAction _ _ => true
  | _ => false

/-- The actions whose `AddButton` call succeeds, in the order of the calls: the action at
position `j` of this list owns the button with native index `j`. -/
def addedActions (o : Nat → Option String) : List Action → Nat → List Action
  | [], _ => []
  | action :: rest, k =>
    match o k with
    | none => action :: addedActions o rest (k + 1)
    | some _ => addedActions o rest (k + 1)

/-- Every registry entry `id -> n` has `n.systemID = id`. -/
def Consistent (w : World) : Prop :=
  ∀ id n, w.notificationsByIDs id = some n → (w.heap n).systemID = id

/-- A `Show` whose native show call returns `id` is applied to an entity that has no
registry entry under another identifier; other calls are unrestricted. -/
def Op.showsUnregistered (w : World) : Op → Prop
  | .callShow _ o n =>
    ∀ id id', o.builderShow = .ok id → w.notificationsByIDs id' = some n → id' = id
  | _ => True

/-- The condition `Op.showsUnregistered` holds at every call of the run. -/
def ShowsUnregistered : List Op → World → Prop
  | [], _ => True
  | op :: ops, w =>
    op.showsUnregistered w ∧
      match step w op with
      | .returned w' => ShowsUnregistered ops w'
      | .panicked _ => True

/-- The call is an Activation, a Dismissal or a Cancel that refers to identifier `id`. -/
def Op.refersTo (w : World) (id : NotificationID) : Op → Bool
  | .callShow _ _ _ => false
  | .callCancel _ _ n => decide ((w.heap n).systemID = id)
  | .activated id' _ => decide (id' = id)
  | .dismissed id' _ => decide (id' = id)

/-- The call reaches a registry removal: every call but a `Show` and a Dismissal whose
reason is not 0. -/
def Op.removes : Op → Bool
  | .callShow _ _ _ => false
  | .callCancel _ _ _ => true
  | .activated _ _ => true
  | .dismissed _ reason => decide (reason = 0)

/-- The call performs the effective removal of the entry for `id`: the entry is there
before the call and gone after it. -/
def effectiveRemoval (id : NotificationID) (w : World) (op : Op) : Bool :=
  (w.notificationsByIDs id).isSome && ((step w op).world.notificationsByIDs id).isNone

/-- Number of calls of the run that perform the effective removal of the entry for `id`. -/
def removals (id : NotificationID) : List Op → World → Nat
  | [], _ => 0
  | op :: ops, w =>
    (if effectiveRemoval id w op then 1 else 0) +
      match step w op with
      | .returned w' => removals id ops w'
      | .panicked _ => 0

/-- The registry operation of the call finds the entry for `id`: the call reaches a removal
and the entry is there before the call. -/
def findsEntry (id : NotificationID) (w : World) (op : Op) : Bool :=
  op.removes && (w.notificationsByIDs id).isSome

/-- Number of calls of the run whose registry operation finds the entry for `id`. -/
def finds (id : NotificationID) : List Op → World → Nat
  | [], _ => 0
  | op :: ops, w =>
    (if findsEntry id w op then 1 else 0) +
      match step w op with
      | .returned w' => finds id ops w'
      | .panicked _ => 0

/-- Number of `SelectAction` invocations in a trace. -/
def selections (tr : List Event) : Nat :=
  (tr.filter Event.isSelectAction).length

/-- The builder `Show` obtains, or the error it logs. -/
def showBuilder (env : Env) (o : NativeShow) (n : Ref) (w : World) :
    Except String NotificationBuilder :=
  NewNotification (getLib env w).2 o.newNotification (w.heap n).Title (w.heap n).Message

/-! ## Concrete inputs -/

/-- A notification with the two actions "open" and "block", not yet shown. -/
def exampleNotification : Notification :=
  { Title := "Portmaster", Message := "A connection was blocked",
    AvailableActions := [{ ID := "open", Text := "Open" }, { ID := "block", Text := "Block" }],
    systemID := 0 }

/-- A heap in which every reference holds `exampleNotification`. -/
def exampleHeap : Ref → Notification := fun _ => exampleNotification

/-- Surroundings in which all four initialization steps succeed. -/
def envOk : Env :=
  { dataDir := "data", platformIdentifier := fun s => "windows_amd64/" ++ s,
    registryGetFile := fun _ => .ok "wintoast.dll",
    wintoastNew := fun path => .ok { dllPath := path },
    libInit := none, setCallbacks := none, version := "1.0" }

/-- Surroundings with an empty data directory. -/
def envNoDataDir : Env := { envOk with dataDir := "" }

/-- Surroundings in which only the registration of the callbacks fails. -/
def envNoCallbacks : Env := { envOk with setCallbacks := some "callbacks" }

/-- Surroundings in which the identity initialization fails. -/
def envNoInit : Env := { envOk with libInit := some "shortcut" }

/-- A native side on which everything succeeds and the notification gets identifier `id`. -/
def nativeOk (id : Int) : NativeShow :=
  { newNotification := none, ensureAppIcon := .ok "icon.png", setImage := none,
    setSound := none, addButton := fun _ => none, builderShow := .ok id }

/-- A native side on which the first `AddButton` call fails and everything else succeeds. -/
def nativeFirstButtonFails (id : Int) : NativeShow :=
  { nativeOk id with addButton := fun k => if k = 0 then some "button" else none }

/-- A native side on which icon, sound and every button fail, and show succeeds. -/
def nativeDegraded (id : Int) : NativeShow :=
  { newNotification := none, ensureAppIcon := .error "icon", setImage := some "image",
    setSound := some "sound", addButton := fun _ => some "button", builderShow := .ok id }

/-- A state in which entity 0 is registered under identifier 42. -/
def worldShown : World :=
  { initOnce := true, lib := some { dllPath := "wintoast.dll" },
    notificationsByIDs := SyncMap.empty.Store 42 0,
    heap := Function.update exampleHeap 0 { exampleNotification with systemID := 42 },
    trace := [] }

/-! ## Basic facts about the registry and the helpers -/

@[simp] theorem SyncMap.Store_same (m : SyncMap) (k : NotificationID) (v : Ref) :
    m.Store k v k = some v := by
  simp [SyncMap.Store]

theorem SyncMap.Store_other (m : SyncMap) (k k' : NotificationID) (v : Ref) (h : k' ≠ k) :
    m.Store k v k' = m k' := by
  simp [SyncMap.Store, h]

@[simp] theorem SyncMap.Delete_same (m : SyncMap) (k : NotificationID) :
    m.Delete k k = none := by
  simp [SyncMap.Delete]

theorem SyncMap.Delete_other (m : SyncMap) (k k' : NotificationID) (h : k' ≠ k) :
    m.Delete k k' = m k' := by
  simp [SyncMap.Delete, h]

theorem SyncMap.Delete_absent (m : SyncMap) (k : NotificationID) (h : m k = none) :
    m.Delete k = m := by
  funext k'
  by_cases hk : k' = k
  · subst hk; simp [SyncMap.Delete, h]
  · simp [SyncMap.Delete, hk]

@[simp] theorem emit_heap (w : World) (e : Event) : (w.emit e).heap = w.heap := rfl
@[simp] theorem emit_notificationsByIDs (w : World) (e : Event) :
    (w.emit e).notificationsByIDs = w.notificationsByIDs := rfl
@[simp] theorem emit_lib (w : World) (e : Event) : (w.emit e).lib = w.lib := rfl
@[simp] theorem emit_initOnce (w : World) (e : Event) : (w.emit e).initOnce = w.initOnce := rfl
@[simp] theorem emit_trace (w : World) (e : Event) : (w.emit e).trace = w.trace ++ [e] := rfl

theorem getLibOnce_heap (env : Env) (w : World) : (getLibOnce env w).heap = w.heap := by
  unfold getLibOnce
  repeat' split
  all_goals simp

theorem getLibOnce_notificationsByIDs (env : Env) (w : World) :
    (getLibOnce env w).notificationsByIDs = w.notificationsByIDs := by
  unfold getLibOnce
  repeat' split
  all_goals simp

theorem getLibOnce_trace (env : Env) (w : World) :
    ∃ evs, (getLibOnce env w).trace = w.trace ++ evs := by
  unfold getLibOnce
  repeat' split
  all_goals simp

@[simp] theorem getLib_heap (env : Env) (w : World) : (getLib env w).1.heap = w.heap := by
  unfold getLib
  by_cases h : w.initOnce = true <;> simp [h, getLibOnce_heap]

@[simp] theorem getLib_notificationsByIDs (env : Env) (w : World) :
    (getLib env w).1.notificationsByIDs = w.notificationsByIDs := by
  unfold getLib
  by_cases h : w.initOnce = true <;> simp [h, getLibOnce_notificationsByIDs]

theorem getLib_snd (env : Env) (w : World) : (getLib env w).2 = (getLib env w).1.lib := rfl

@[simp] theorem getLib_initOnce (env : Env) (w : World) : (getLib env w).1.initOnce = true := by
  unfold getLib
  by_cases h : w.initOnce = true <;> simp [h]

theorem getLib_trace (env : Env) (w : World) :
    ∃ evs, (getLib env w).1.trace = w.trace ++ evs := by
  unfold getLib
  by_cases h : w.initOnce = true
  · exact ⟨[], by simp [h]⟩
  · obtain ⟨evs, hevs⟩ := getLibOnce_trace env w
    exact ⟨evs, by simp [h, hevs]⟩

/-- A call of `getLib` after the first one changes nothing and returns `lib`. -/
theorem getLib_of_done (env : Env) (w : World) (h : w.initOnce = true) :
    getLib env w = (w, w.lib) := by
  simp [getLib, h]

/-! ## The parts of `Show` -/

theorem setIcon_fields (o : NativeShow) (w : World) :
    (setIcon o w).heap = w.heap ∧ (setIcon o w).notificationsByIDs = w.notificationsByIDs ∧
      (setIcon o w).lib = w.lib ∧ (setIcon o w).initOnce = w.initOnce ∧
      ∃ evs, (setIcon o w).trace = w.trace ++ evs := by
  unfold setIcon
  repeat' split
  all_goals simp

theorem setDefaultSound_fields (o : NativeShow) (w : World) :
    (setDefaultSound o w).heap = w.heap ∧
      (setDefaultSound o w).notificationsByIDs = w.notificationsByIDs ∧
      (setDefaultSound o w).lib = w.lib ∧ (setDefaultSound o w).initOnce = w.initOnce ∧
      ∃ evs, (setDefaultSound o w).trace = w.trace ++ evs := by
  unfold setDefaultSound
  repeat' split
  all_goals simp

theorem addButtons_fields (o : Nat → Option String) (l : List Action) :
    ∀ (k : Nat) (b : NotificationBuilder) (w : World),
      (addButtons o l k b w).2.heap = w.heap ∧
      (addButtons o l k b w).2.notificationsByIDs = w.notificationsByIDs ∧
      (addButtons o l k b w).2.lib = w.lib ∧
      (addButtons o l k b w).2.initOnce = w.initOnce ∧
      ∃ evs, (addButtons o l k b w).2.trace = w.trace ++ evs := by
  induction l with
  | nil => intro k b w; simp [addButtons]
  | cons a rest ih =>
    intro k b w
    unfold addButtons
    cases ho : o k with
    | none =>
      simp only [AddButton]
      obtain ⟨h1, h2, h3, h4, evs, h5⟩ := ih (k + 1) { b with buttons := b.buttons ++ [a.Text] }
        (w.emit (.addButton a.Text))
      refine ⟨by simpa using h1, by simpa using h2, by simpa using h3, by simpa using h4, ?_⟩
      exact ⟨.addButton a.Text :: evs, by simp [h5]⟩
    | some err =>
      simp only [AddButton]
      obtain ⟨h1, h2, h3, h4, evs, h5⟩ := ih (k + 1) b
        ((w.emit (.addButton a.Text)).emit
          (.logWarningf ("notify: failed to add button: " ++ err)))
      refine ⟨by simpa using h1, by simpa using h2, by simpa using h3, by simpa using h4, ?_⟩
      exact ⟨.addButton a.Text :: .logWarningf ("notify: failed to add button: " ++ err) :: evs,
        by simp [h5]⟩

/-- The buttons on the builder after the loop are the texts of `addedActions`, in order. -/
theorem addButtons_buttons (o : Nat → Option String) (l : List Action) :
    ∀ (k : Nat) (b : NotificationBuilder) (w : World),
      (addButtons o l k b w).1.buttons = b.buttons ++ (addedActions o l k).map Action.Text := by
  induction l with
  | nil => intro k b w; simp [addButtons, addedActions]
  | cons a rest ih =>
    intro k b w
    unfold addButtons addedActions
    cases ho : o k with
    | none => simp [AddButton, ih]
    | some err => simp [AddButton, ih]

/-! ## `Show` -/

theorem showBuilder_ok_iff (env : Env) (o : NativeShow) (n : Ref) (w : World) :
    (∃ b, showBuilder env o n w = .ok b) ↔
      (∃ l, (getLib env w).2 = some l) ∧ o.newNotification = none := by
  unfold showBuilder NewNotification
  cases (getLib env w).2 with
  | none => simp
  | some l => cases o.newNotification <;> simp

/-- Without a builder `Show` changes neither the heap nor the registry. -/
theorem Show_builder_error (env : Env) (o : NativeShow) (n : Ref) (w : World) (err : String)
    (h : showBuilder env o n w = .error err) :
    (Show env o n w).heap = w.heap ∧
      (Show env o n w).notificationsByIDs = w.notificationsByIDs ∧
      (Show env o n w).lib = (getLib env w).2 ∧
      (Show env o n w).trace = (getLib env w).1.trace ++
        [.newNotification (w.heap n).Title (w.heap n).Message,
         .logErrorf ("notify: failed to create notification: " ++ err)] := by
  unfold showBuilder at h
  simp only [Show, emit_heap, getLib_heap, h]
  simp [getLib_snd]

/-- With a builder and a failed native show, `Show` changes neither the heap nor the
registry. -/
theorem Show_show_error (env : Env) (o : NativeShow) (n : Ref) (w : World)
    (b : NotificationBuilder) (err : String)
    (h : showBuilder env o n w = .ok b) (hs : o.builderShow = .error err) :
    (Show env o n w).heap = w.heap ∧
      (Show env o n w).notificationsByIDs = w.notificationsByIDs := by
  unfold showBuilder at h
  simp only [Show, emit_heap, getLib_heap, h, hs]
  obtain ⟨i1, i2, -⟩ := setIcon_fields o ((getLib env w).1.emit
    (.newNotification (w.heap n).Title (w.heap n).Message))
  obtain ⟨s1, s2, -⟩ := setDefaultSound_fields o (setIcon o ((getLib env w).1.emit
    (.newNotification (w.heap n).Title (w.heap n).Message)))
  simp only [s1, i1, emit_heap, getLib_heap]
  obtain ⟨a1, a2, -⟩ := addButtons_fields o.addButton (w.heap n).AvailableActions 0 b
    (setDefaultSound o (setIcon o ((getLib env w).1.emit
      (.newNotification (w.heap n).Title (w.heap n).Message))))
  simp [a1, a2, s1, s2, i1, i2]

/-- With a builder and a successful native show, `Show` stores the identifier in the
entity and the entity in the registry. -/
theorem Show_show_ok (env : Env) (o : NativeShow) (n : Ref) (w : World)
    (b : NotificationBuilder) (id : Int)
    (h : showBuilder env o n w = .ok b) (hs : o.builderShow = .ok id) :
    (Show env o n w).heap = Function.update w.heap n { w.heap n with systemID := id } ∧
      (Show env o n w).notificationsByIDs = w.notificationsByIDs.Store id n := by
  unfold showBuilder at h
  simp only [Show, emit_heap, getLib_heap, h, hs]
  obtain ⟨i1, i2, -⟩ := setIcon_fields o ((getLib env w).1.emit
    (.newNotification (w.heap n).Title (w.heap n).Message))
  obtain ⟨s1, s2, -⟩ := setDefaultSound_fields o (setIcon o ((getLib env w).1.emit
    (.newNotification (w.heap n).Title (w.heap n).Message)))
  simp only [s1, i1, emit_heap, getLib_heap]
  obtain ⟨a1, a2, -⟩ := addButtons_fields o.addButton (w.heap n).AvailableActions 0 b
    (setDefaultSound o (setIcon o ((getLib env w).1.emit
      (.newNotification (w.heap n).Title (w.heap n).Message))))
  simp [a1, a2, s1, s2, i1, i2]

/-- C1: when `Show` on `n` gets a builder and the native show call succeeds with
identifier `id`, then afterwards `n.systemID = id`, the registry maps `id` to `n`, the
entry of every other identifier is as before, and no other field of `n` and no other
entity has changed. -/
theorem Show_registers (env : Env) (o : NativeShow) (n : Ref) (w : World)
    (b : NotificationBuilder) (id : Int)
    (h : showBuilder env o n w = .ok b) (hs : o.builderShow = .ok id) :
    ((Show env o n w).heap n).systemID = id ∧
      (Show env o n w).notificationsByIDs id = some n ∧
      (∀ id', id' ≠ id → (Show env o n w).notificationsByIDs id' = w.notificationsByIDs id') ∧
      (Show env o n w).heap n = { w.heap n with systemID := id } ∧
      (∀ m, m ≠ n → (Show env o n w).heap m = w.heap m) := by
  obtain ⟨hh, hr⟩ := Show_show_ok env o n w b id h hs
  rw [hh, hr]
  refine ⟨by simp, by simp, ?_, by simp, ?_⟩
  · intro id' hne
    exact SyncMap.Store_other _ _ _ _ hne
  · intro m hne
    simp [Function.update, hne]

/-- C1, at a concrete input: a fresh process shows entity 0 and the native side answers
identifier 42. -/
theorem Show_registers_witness :
    showBuilder envOk (nativeOk 42) 0 (World.fresh exampleHeap) =
        .ok { title := "Portmaster", message := "A connection was blocked", buttons := [] } ∧
      (nativeOk 42).builderShow = .ok 42 ∧
      ((Show envOk (nativeOk 42) 0 (World.fresh exampleHeap)).heap 0).systemID = 42 ∧
      (Show envOk (nativeOk 42) 0 (World.fresh exampleHeap)).notificationsByIDs 42 = some 0 :=
  have hb : showBuilder envOk (nativeOk 42) 0 (World.fresh exampleHeap) =
      .ok { title := "Portmaster", message := "A connection was blocked", buttons := [] } := by
    rfl
  have h := Show_registers envOk (nativeOk 42) 0 (World.fresh exampleHeap) _ 42 hb rfl
  ⟨hb, rfl, h.1, h.2.1⟩

/-! ## Callbacks and `Cancel` -/

theorem Cancel_fields (env : Env) (hide : Option String) (n : Ref) (w : World) :
    (Cancel env hide n w).heap = w.heap ∧
      (Cancel env hide n w).notificationsByIDs =
        w.notificationsByIDs.Delete (w.heap n).systemID := by
  unfold Cancel HideNotification
  cases hl : (getLib env w).2 <;> simp [hl]

theorem activated_body (id : Int) (w : World) :
    notificationActivatedCallback id (-1) w =
      .returned { w.emit .launchApp with
        notificationsByIDs := w.notificationsByIDs.Delete id } := by
  simp [notificationActivatedCallback]

theorem activated_absent (id i : Int) (w : World) (hi : i ≠ -1)
    (h : w.notificationsByIDs id = none) :
    notificationActivatedCallback id i w = .returned w := by
  simp [notificationActivatedCallback, hi, SyncMap.LoadAndDelete, h,
    SyncMap.Delete_absent _ _ h]

theorem activated_present (id i : Int) (w : World) (n : Ref) (hi : i ≠ -1)
    (h : w.notificationsByIDs id = some n) :
    notificationActivatedCallback id i w =
      match index (w.heap n).AvailableActions i with
      | none => .panicked { w with notificationsByIDs := w.notificationsByIDs.Delete id }
      | some action =>
        .returned (SelectAction n action.ID
          { w with notificationsByIDs := w.notificationsByIDs.Delete id }) := by
  simp [notificationActivatedCallback, hi, SyncMap.LoadAndDelete, h]

theorem index_in_range (s : List Action) (i : Int) (h0 : 0 ≤ i) (hlt : i.toNat < s.length) :
    index s i = some (s.get ⟨i.toNat, hlt⟩) := by
  simp [index, h0, List.getElem?_eq_getElem hlt]

/-- C2: when `id` is registered to entity `n` and `0 <= i < len(n.AvailableActions)`,
`Activation(id, i)` returns after removing the entry and invoking `SelectAction` on `n`
exactly once, with `AvailableActions[i].ID`: the trace grows by that single event. -/
theorem activated_selects (id i : Int) (w : World) (n : Ref)
    (hreg : w.notificationsByIDs id = some n) (h0 : 0 ≤ i)
    (hlt : i.toNat < (w.heap n).AvailableActions.length) :
    ∃ w', notificationActivatedCallback id i w = .returned w' ∧
      w'.trace = w.trace ++
        [.selectAction n ((w.heap n).AvailableActions.get ⟨i.toNat, hlt⟩).ID] ∧
      selections w'.trace = selections w.trace + 1 ∧
      w'.heap = w.heap ∧
      w'.notificationsByIDs = w.notificationsByIDs.Delete id := by
  have hi : i ≠ -1 := by omega
  rw [activated_present id i w n hi hreg, index_in_range _ i h0 hlt]
  refine ⟨_, rfl, ?_, ?_, ?_, ?_⟩ <;>
    simp [SelectAction, selections, Event.isSelectAction]

/-- C2, the instance of the specification: with the actions "open" and "block" registered
under 42, `Activation(42, 1)` selects "block". -/
theorem activated_selects_witness :
    worldShown.notificationsByIDs 42 = some 0 ∧
      ∃ w', notificationActivatedCallback 42 1 worldShown = .returned w' ∧
        w'.trace = [.selectAction 0 "block"] :=
  have hreg : worldShown.notificationsByIDs 42 = some 0 := rfl
  have h := activated_selects 42 1 worldShown 0 hreg (by decide) (by decide)
  ⟨hreg, h.elim fun w' hw' => ⟨w', hw'.1, hw'.2.1⟩⟩

/-- C3: for every identifier and every state, `Activation(id, -1)` returns after calling
`launchApp` and nothing else, leaves no entry for `id`, leaves every other entry and every
entity as they were, and invokes no `SelectAction`. -/
theorem activated_body_launches (id : Int) (w : World) :
    ∃ w', notificationActivatedCallback id (-1) w = .returned w' ∧
      w'.trace = w.trace ++ [.launchApp] ∧
      w'.notificationsByIDs id = none ∧
      (∀ id', id' ≠ id → w'.notificationsByIDs id' = w.notificationsByIDs id') ∧
      w'.heap = w.heap ∧
      selections w'.trace = selections w.trace := by
  rw [activated_body]
  refine ⟨_, rfl, by simp, by simp, ?_, by simp, ?_⟩
  · intro id' hne
    exact SyncMap.Delete_other _ _ _ hne
  · simp [selections, Event.isSelectAction]

/-- Whatever the index and however the call ends, Activation leaves no entry for `id`. -/
theorem activated_removes (id i : Int) (w : World) :
    (notificationActivatedCallback id i w).world.notificationsByIDs id = none := by
  by_cases hi : i = -1
  · subst hi; rw [activated_body]; simp [Result.world]
  · cases hreg : w.notificationsByIDs id with
    | none => rw [activated_absent id i w hi hreg]; simpa [Result.world] using hreg
    | some m =>
      rw [activated_present id i w m hi hreg]
      cases index (w.heap m).AvailableActions i <;> simp [Result.world, SelectAction]

/-- C5: after `Cancel` on an entity (whatever the native hide answers), after
`Activation(id, -1)`, after `Activation(id, i)` for any `i` (returning or not), and after
`Dismissal(id, 0)`, a lookup of the identifier in the registry finds nothing. -/
theorem removed_not_found (env : Env) (hide : Option String) (n : Ref) (id i : Int)
    (w : World) :
    (Cancel env hide n w).notificationsByIDs.Load (w.heap n).systemID = none ∧
      (notificationActivatedCallback id (-1) w).world.notificationsByIDs.Load id = none ∧
      (notificationActivatedCallback id i w).world.notificationsByIDs.Load id = none ∧
      (notificationDismissedCallback id 0 w).notificationsByIDs.Load id = none := by
  refine ⟨?_, ?_, ?_, ?_⟩
  · rw [(Cancel_fields env hide n w).2]; simp [SyncMap.Load]
  · rw [activated_body]; simp [SyncMap.Load, Result.world]
  · exact activated_removes id i w
  · simp [notificationDismissedCallback, SyncMap.Load]

/-! ## `Show` without a library, and the two outcomes of `Show` -/

theorem getDllPath_empty_dataDir (env : Env) (h : env.dataDir = "") :
    getDllPath env = .error "dataDir is empty" := by
  simp [getDllPath, h]

theorem getLibOnce_lib_of_path_error (env : Env) (w : World) (e : String)
    (h : getDllPath env = .error e) : (getLibOnce env w).lib = w.lib := by
  simp [getLibOnce, h]

theorem getLib_none_of_path_error (env : Env) (w : World) (e : String)
    (h : getDllPath env = .error e) (hlib : w.lib = none) : (getLib env w).2 = none := by
  unfold getLib
  by_cases hd : w.initOnce = true
  · simp [hd, hlib]
  · simp [hd, getLibOnce_lib_of_path_error env w e h, hlib]

/-- C6: when `getDllPath` fails and no library is loaded, `getLib` gives the absent
handle and `Show` on any entity ends by logging one error: the registry and every entity,
`systemID` included, are as before, and the library stays absent. -/
theorem Show_without_library (env : Env) (o : NativeShow) (n : Ref) (w : World) (e : String)
    (hpath : getDllPath env = .error e) (hlib : w.lib = none) :
    (getLib env w).2 = none ∧
      (Show env o n w).notificationsByIDs = w.notificationsByIDs ∧
      (Show env o n w).heap = w.heap ∧
      (Show env o n w).lib = none ∧
      ∃ evs msg, (Show env o n w).trace = w.trace ++ evs ++ [.logErrorf msg] := by
  have hnone := getLib_none_of_path_error env w e hpath hlib
  have hb : showBuilder env o n w = .error "wintoast: lib object was nil" := by
    simp [showBuilder, hnone, NewNotification]
  obtain ⟨h1, h2, h3, h4⟩ := Show_builder_error env o n w _ hb
  obtain ⟨evs, hevs⟩ := getLib_trace env w
  refine ⟨hnone, h2, h1, by rw [h3, hnone], ?_⟩
  refine ⟨evs ++ [.newNotification (w.heap n).Title (w.heap n).Message],
    "notify: failed to create notification: " ++ "wintoast: lib object was nil", ?_⟩
  rw [h4, hevs]
  simp

/-- C6, at a concrete input: a fresh process with an empty data directory shows
entity 0. -/
theorem Show_without_library_witness :
    getDllPath envNoDataDir = .error "dataDir is empty" ∧
      (World.fresh exampleHeap).lib = none ∧
      (Show envNoDataDir (nativeOk 42) 0 (World.fresh exampleHeap)).notificationsByIDs =
        (World.fresh exampleHeap).notificationsByIDs ∧
      (Show envNoDataDir (nativeOk 42) 0 (World.fresh exampleHeap)).heap = exampleHeap :=
  have hp : getDllPath envNoDataDir = .error "dataDir is empty" :=
    getDllPath_empty_dataDir envNoDataDir rfl
  have h := Show_without_library envNoDataDir (nativeOk 42) 0 (World.fresh exampleHeap) _ hp rfl
  ⟨hp, rfl, h.2.1, h.2.2.1⟩

/-- With the icon, the sound and every button failing, `Show` still registers the
notification. -/
theorem Show_degraded_registers :
    (Show envOk (nativeDegraded 42) 0 (World.fresh exampleHeap)).notificationsByIDs 42 = some 0 ∧
      ((Show envOk (nativeDegraded 42) 0 (World.fresh exampleHeap)).heap 0).systemID = 42 :=
  ⟨rfl, rfl⟩

/-- C9: `Show` ends in exactly one of two ways. Either the library is present, the builder
is created and the native show succeeds with some `id`, and then the registry maps `id` to
the entity and the entity has `systemID = id`; or the library is absent, the builder is
not created or the native show fails, and then every entity and the whole registry are as
before. Which of the two it is does not depend on the icon, the sound or the buttons. -/
theorem Show_two_outcomes (env : Env) (o : NativeShow) (n : Ref) (w : World) :
    Xor'
      (∃ l id, (getLib env w).2 = some l ∧ o.newNotification = none ∧
        o.builderShow = .ok id ∧
        (Show env o n w).notificationsByIDs id = some n ∧
        ((Show env o n w).heap n).systemID = id)
      (((getLib env w).2 = none ∨ (∃ e, o.newNotification = some e) ∨
          (∃ e, o.builderShow = .error e)) ∧
        (Show env o n w).heap = w.heap ∧
        (Show env o n w).notificationsByIDs = w.notificationsByIDs) := by
  cases hb : showBuilder env o n w with
  | error err =>
    have hno : ¬ ((∃ l, (getLib env w).2 = some l) ∧ o.newNotification = none) := by
      rw [← showBuilder_ok_iff env o n w, hb]; simp
    obtain ⟨h1, h2, -⟩ := Show_builder_error env o n w err hb
    right
    refine ⟨⟨?_, h1, h2⟩, ?_⟩
    · cases hl : (getLib env w).2 with
      | none => exact Or.inl rfl
      | some l =>
        cases hn : o.newNotification with
        | none => exact absurd ⟨⟨l, hl⟩, hn⟩ hno
        | some e => exact Or.inr (Or.inl ⟨e, rfl⟩)
    · rintro ⟨l, id, hl, hn, -⟩
      exact hno ⟨⟨l, hl⟩, hn⟩
  | ok b =>
    obtain ⟨⟨l, hl⟩, hn⟩ := (showBuilder_ok_iff env o n w).1 ⟨b, hb⟩
    cases hs : o.builderShow with
    | error err =>
      obtain ⟨h1, h2⟩ := Show_show_error env o n w b err hb hs
      right
      refine ⟨⟨Or.inr (Or.inr ⟨err, rfl⟩), h1, h2⟩, ?_⟩
      rintro ⟨l', id, -, -, hs', -⟩
      simp at hs'
    | ok id =>
      obtain ⟨h1, h2⟩ := Show_show_ok env o n w b id hb hs
      left
      refine ⟨⟨l, id, hl, hn, rfl, by rw [h2]; simp, by rw [h1]; simp⟩, ?_⟩
      rintro ⟨hcase, -⟩
      rcases hcase with hc | ⟨e, hc⟩ | ⟨e, hc⟩
      · simp [hl] at hc
      · simp [hn] at hc
      · simp at hc

/-! ## Initialization runs once -/

theorem setIcon_initSteps (o : NativeShow) (w : World) :
    (setIcon o w).trace.filter Event.isInitStep = w.trace.filter Event.isInitStep := by
  unfold setIcon
  repeat' split
  all_goals simp [List.filter_append, Event.isInitStep]

theorem setDefaultSound_initSteps (o : NativeShow) (w : World) :
    (setDefaultSound o w).trace.filter Event.isInitStep = w.trace.filter Event.isInitStep := by
  unfold setDefaultSound
  repeat' split
  all_goals simp [List.filter_append, Event.isInitStep]

theorem addButtons_initSteps (o : Nat → Option String) (l : List Action) :
    ∀ (k : Nat) (b : NotificationBuilder) (w : World),
      (addButtons o l k b w).2.trace.filter Event.isInitStep =
        w.trace.filter Event.isInitStep := by
  induction l with
  | nil => intro k b w; simp [addButtons]
  | cons a rest ih =>
    intro k b w
    unfold addButtons
    cases ho : o k with
    | none => simp [AddButton, ih, List.filter_append, Event.isInitStep]
    | some err => simp [AddButton, ih, List.filter_append, Event.isInitStep]

/-- Outside `getLib`, `Show` touches neither `initOnce` nor `lib` and runs no
initialization step. -/
theorem Show_init_fields (env : Env) (o : NativeShow) (n : Ref) (w : World) :
    (Show env o n w).initOnce = true ∧ (Show env o n w).lib = (getLib env w).2 ∧
      (Show env o n w).trace.filter Event.isInitStep =
        (getLib env w).1.trace.filter Event.isInitStep := by
  cases hb : showBuilder env o n w with
  | error err =>
    unfold showBuilder at hb
    simp only [Show, emit_heap, getLib_heap, hb]
    simp [getLib_snd, List.filter_append, Event.isInitStep]
  | ok b =>
    unfold showBuilder at hb
    simp only [Show, emit_heap, getLib_heap, hb]
    obtain ⟨i1, -, i3, i4, -⟩ := setIcon_fields o ((getLib env w).1.emit
      (.newNotification (w.heap n).Title (w.heap n).Message))
    obtain ⟨s1, -, s3, s4, -⟩ := setDefaultSound_fields o (setIcon o ((getLib env w).1.emit
      (.newNotification (w.heap n).Title (w.heap n).Message)))
    simp only [s1, i1, emit_heap, getLib_heap]
    obtain ⟨-, -, a3, a4, -⟩ := addButtons_fields o.addButton (w.heap n).AvailableActions 0 b
      (setDefaultSound o (setIcon o ((getLib env w).1.emit
        (.newNotification (w.heap n).Title (w.heap n).Message))))
    cases hs : o.builderShow <;>
      simp [a3, a4, s3, s4, i3, i4, getLib_snd, List.filter_append, Event.isInitStep,
        addButtons_initSteps, setDefaultSound_initSteps, setIcon_initSteps]

theorem Cancel_init_fields (env : Env) (hide : Option String) (n : Ref) (w : World) :
    (Cancel env hide n w).initOnce = true ∧ (Cancel env hide n w).lib = (getLib env w).2 ∧
      (Cancel env hide n w).trace.filter Event.isInitStep =
        (getLib env w).1.trace.filter Event.isInitStep := by
  unfold Cancel HideNotification
  cases hl : (getLib env w).2 <;>
    simp [hl, ← getLib_snd, List.filter_append, Event.isInitStep]

theorem activated_init_fields (id i : Int) (w : World) :
    (notificationActivatedCallback id i w).world.initOnce = w.initOnce ∧
      (notificationActivatedCallback id i w).world.lib = w.lib ∧
      (notificationActivatedCallback id i w).world.trace.filter Event.isInitStep =
        w.trace.filter Event.isInitStep := by
  by_cases hi : i = -1
  · subst hi
    rw [activated_body]
    simp [Result.world, List.filter_append, Event.isInitStep]
  · cases hreg : w.notificationsByIDs id with
    | none => rw [activated_absent id i w hi hreg]; simp [Result.world]
    | some m =>
      rw [activated_present id i w m hi hreg]
      cases index (w.heap m).AvailableActions i <;>
        simp [Result.world, SelectAction, List.filter_append, Event.isInitStep]

/-- Once `initOnce` is done, no call changes `initOnce` or `lib` or runs an
initialization step. -/
theorem step_of_done (w : World) (op : Op) (h : w.initOnce = true) :
    (step w op).world.initOnce = true ∧ (step w op).world.lib = w.lib ∧
      (step w op).world.trace.filter Event.isInitStep = w.trace.filter Event.isInitStep := by
  cases op with
  | callShow env o n =>
    have := Show_init_fields env o n w
    simpa [step, Result.world, getLib_of_done env w h] using this
  | callCancel env hide n =>
    have := Cancel_init_fields env hide n w
    simpa [step, Result.world, getLib_of_done env w h] using this
  | activated id i =>
    have := activated_init_fields id i w
    simpa [step, h] using this
  | dismissed id reason =>
    by_cases hr : reason = 0 <;>
      simp [step, Result.world, notificationDismissedCallback, hr, h]

theorem run_of_done (ops : List Op) :
    ∀ w : World, w.initOnce = true →
      (run ops w).world.initOnce = true ∧ (run ops w).world.lib = w.lib ∧
        (run ops w).world.trace.filter Event.isInitStep =
          w.trace.filter Event.isInitStep := by
  induction ops with
  | nil => intro w h; simp [run, Result.world, h]
  | cons op ops ih =>
    intro w h
    have hs := step_of_done w op h
    unfold run
    cases hstep : step w op with
    | returned w' =>
      rw [hstep] at hs
      simp only [Result.world] at hs
      obtain ⟨h1, h2, h3⟩ := ih w' hs.1
      exact ⟨h1, by rw [h2, hs.2.1], by rw [h3, hs.2.2]⟩
    | panicked w' =>
      rw [hstep] at hs
      simpa [Result.world] using hs

theorem getLibOnce_lib_of_early_failure (env : Env) (w : World) (k : Fin 4)
    (hk : failingStep env = some k) (h3 : k ≠ 3) : (getLibOnce env w).lib = w.lib := by
  unfold failingStep at hk
  unfold getLibOnce
  cases hp : getDllPath env with
  | error e => simp
  | ok dllPath =>
    rw [hp] at hk
    simp only at hk ⊢
    cases hn : env.wintoastNew dllPath with
    | error e => simp
    | ok newLib =>
      rw [hn] at hk
      simp only at hk ⊢
      cases hi : env.libInit with
      | some e => simp
      | none =>
        rw [hi] at hk
        simp only at hk
        cases hc : env.setCallbacks with
        | some e =>
          rw [hc] at hk
          simp only [Option.some.injEq] at hk
          exact absurd hk.symm h3
        | none => rw [hc] at hk; simp at hk

theorem getLibOnce_lib_of_callback_failure (env : Env) (w : World)
    (hk : failingStep env = some 3) : ∃ l, (getLibOnce env w).lib = some l := by
  unfold failingStep at hk
  unfold getLibOnce
  cases hp : getDllPath env with
  | error e => rw [hp] at hk; simp at hk
  | ok dllPath =>
    rw [hp] at hk
    simp only at hk ⊢
    cases hn : env.wintoastNew dllPath with
    | error e => rw [hn] at hk; simp at hk
    | ok newLib =>
      rw [hn] at hk
      simp only at hk ⊢
      cases hi : env.libInit with
      | some e => rw [hi] at hk; simp at hk
      | none =>
        cases hc : env.setCallbacks with
        | some e => exact ⟨newLib, by simp⟩
        | none => rw [hi, hc] at hk; simp at hk

/-- What a call of `getLib` returns after the first call and any further calls. -/
theorem getLib_later (env env' : Env) (w : World) (ops : List Op) :
    (getLib env' (run ops (getLib env w).1).world).2 = (getLib env w).2 ∧
      (getLib env' (run ops (getLib env w).1).world).1.trace.filter Event.isInitStep =
        (getLib env w).1.trace.filter Event.isInitStep := by
  obtain ⟨h1, h2, h3⟩ := run_of_done ops (getLib env w).1 (getLib_initOnce env w)
  rw [getLib_of_done env' _ h1]
  exact ⟨by rw [h2, getLib_snd], h3⟩

/-- C7, as amended: in a process that has not initialized yet, when the first call of
`getLib` fails to resolve the library path, to load the library or to run the identity
initialization, that call and every call after any further operations return the absent
handle; when only the registration of the callbacks fails, they all return the loaded
handle; in both cases no later call runs an initialization step again. -/
theorem getLib_first_failure (env : Env) (w : World) (k : Fin 4)
    (hfresh : w.initOnce = false) (hnil : w.lib = none) (hk : failingStep env = some k) :
    (k ≠ 3 → (getLib env w).2 = none ∧
        ∀ ops env', (getLib env' (run ops (getLib env w).1).world).2 = none) ∧
      (k = 3 → ∃ l, (getLib env w).2 = some l ∧
        ∀ ops env', (getLib env' (run ops (getLib env w).1).world).2 = some l) ∧
      (∀ ops env',
        (getLib env' (run ops (getLib env w).1).world).1.trace.filter Event.isInitStep =
          (getLib env w).1.trace.filter Event.isInitStep) := by
  refine ⟨?_, ?_, ?_⟩
  · intro h3
    have h : (getLib env w).2 = none := by
      simp [getLib, hfresh, getLibOnce_lib_of_early_failure env w k hk h3, hnil]
    exact ⟨h, fun ops env' => by rw [(getLib_later env env' w ops).1, h]⟩
  · intro h3
    subst h3
    obtain ⟨l, hl⟩ := getLibOnce_lib_of_callback_failure env w hk
    have h : (getLib env w).2 = some l := by simp [getLib, hfresh, hl]
    exact ⟨l, h, fun ops env' => by rw [(getLib_later env env' w ops).1, h]⟩
  · intro ops env'
    exact (getLib_later env env' w ops).2

/-- C7 as amended, at a concrete input: the identity initialization fails on the first
call; a later call stays without handle even when everything would succeed by then. -/
theorem getLib_first_failure_witness :
    (World.fresh exampleHeap).initOnce = false ∧ (World.fresh exampleHeap).lib = none ∧
      failingStep envNoInit = some 2 ∧
      (getLib envNoInit (World.fresh exampleHeap)).2 = none ∧
      (getLib envOk (run [] (getLib envNoInit (World.fresh exampleHeap)).1).world).2 = none :=
  have h := getLib_first_failure envNoInit (World.fresh exampleHeap) 2 rfl rfl rfl
  ⟨rfl, rfl, rfl, (h.1 (by decide)).1, (h.1 (by decide)).2 [] envOk⟩

/-- C7 as stated fails: when the registration of the callbacks is the step that fails in
a fresh process, the first call of `getLib` and the next one return the loaded handle. -/
theorem getLib_callback_failure_keeps_handle :
    failingStep envNoCallbacks = some 3 ∧
      (World.fresh exampleHeap).initOnce = false ∧
      (getLib envNoCallbacks (World.fresh exampleHeap)).2 = some { dllPath := "wintoast.dll" } ∧
      (getLib envNoCallbacks (getLib envNoCallbacks (World.fresh exampleHeap)).1).2 =
        some { dllPath := "wintoast.dll" } :=
  ⟨rfl, rfl, rfl, rfl⟩

/-! ## Button indices -/

/-- When every `AddButton` call succeeds, the added actions are the available actions. -/
theorem addedActions_all_ok (o : Nat → Option String) (l : List Action) (ho : ∀ k, o k = none) :
    ∀ k, addedActions o l k = l := by
  induction l with
  | nil => intro k; simp [addedActions]
  | cons a rest ih => intro k; simp [addedActions, ho k, ih]

/-- C8, the code at the failing input: the entity has the actions "open" and "block", the
first `AddButton` call fails and the second succeeds. The notification is shown under 42
with the single button "Block", which has native index 0 and belongs to action "block";
`Activation(42, 0)` then selects "open". -/
theorem clicked_button_selects_other_action :
    addedActions (nativeFirstButtonFails 42).addButton exampleNotification.AvailableActions 0 =
        [{ ID := "block", Text := "Block" }] ∧
      Event.builderShow ["Block"] ∈
        (Show envOk (nativeFirstButtonFails 42) 0 (World.fresh exampleHeap)).trace ∧
      (Show envOk (nativeFirstButtonFails 42) 0 (World.fresh exampleHeap)).notificationsByIDs 42 =
        some 0 ∧
      ((notificationActivatedCallback 42 0
        (Show envOk (nativeFirstButtonFails 42) 0 (World.fresh exampleHeap))).world.trace.filter
          Event.isSelectAction) = [.selectAction 0 "open"] := by
  refine ⟨by decide, by decide, by rfl, by decide⟩

/-! ## Consistency of the registry -/

theorem Consistent_of_sub (w w' : World) (hc : Consistent w) (hh : w'.heap = w.heap)
    (hsub : ∀ id n, w'.notificationsByIDs id = some n → w.notificationsByIDs id = some n) :
    Consistent w' := by
  intro id n h
  rw [hh]
  exact hc id n (hsub id n h)

theorem Delete_sub (m : SyncMap) (k id : NotificationID) (n : Ref)
    (h : m.Delete k id = some n) : m id = some n := by
  unfold SyncMap.Delete at h
  by_cases hk : id = k
  · simp [hk] at h
  · simpa [hk] using h

theorem activated_fields (id i : Int) (w : World) :
    (notificationActivatedCallback id i w).world.heap = w.heap ∧
      ∀ id' n, (notificationActivatedCallback id i w).world.notificationsByIDs id' = some n →
        w.notificationsByIDs id' = some n := by
  by_cases hi : i = -1
  · subst hi
    rw [activated_body]
    exact ⟨rfl, fun id' n h => Delete_sub _ _ _ _ h⟩
  · cases hreg : w.notificationsByIDs id with
    | none =>
      rw [activated_absent id i w hi hreg]
      exact ⟨rfl, fun id' n h => h⟩
    | some m =>
      rw [activated_present id i w m hi hreg]
      cases index (w.heap m).AvailableActions i with
      | none => exact ⟨rfl, fun id' n h => Delete_sub _ _ _ _ h⟩
      | some a => exact ⟨rfl, fun id' n h => Delete_sub _ _ _ _ h⟩

theorem Show_consistent (env : Env) (o : NativeShow) (n : Ref) (w : World)
    (hc : Consistent w) (hadm : (Op.callShow env o n).showsUnregistered w) :
    Consistent (Show env o n w) := by
  cases hb : showBuilder env o n w with
  | error err =>
    obtain ⟨h1, h2, -⟩ := Show_builder_error env o n w err hb
    exact Consistent_of_sub w _ hc h1 (fun id m h => by rwa [h2] at h)
  | ok b =>
    cases hs : o.builderShow with
    | error err =>
      obtain ⟨h1, h2⟩ := Show_show_error env o n w b err hb hs
      exact Consistent_of_sub w _ hc h1 (fun id m h => by rwa [h2] at h)
    | ok id =>
      obtain ⟨h1, h2⟩ := Show_show_ok env o n w b id hb hs
      intro id' m h
      rw [h2] at h
      rw [h1]
      by_cases hid : id' = id
      · subst hid
        simp only [SyncMap.Store_same, Option.some.injEq] at h
        subst h
        simp
      · rw [SyncMap.Store_other _ _ _ _ hid] at h
        have hmn : m ≠ n := by
          intro hmn
          subst hmn
          exact hid (hadm id id' hs h)
        simpa [Function.update, hmn] using hc id' m h

theorem step_consistent (w : World) (op : Op) (hc : Consistent w)
    (hadm : op.showsUnregistered w) : Consistent (step w op).world := by
  cases op with
  | callShow env o n => exact Show_consistent env o n w hc hadm
  | callCancel env hide n =>
    obtain ⟨h1, h2⟩ := Cancel_fields env hide n w
    exact Consistent_of_sub w _ hc h1 (fun id m h => by
      simp only [step, Result.world] at h
      rw [h2] at h
      exact Delete_sub _ _ _ _ h)
  | activated id i =>
    obtain ⟨h1, h2⟩ := activated_fields id i w
    exact Consistent_of_sub w _ hc h1 h2
  | dismissed id reason =>
    simp only [step, Result.world, notificationDismissedCallback]
    by_cases hr : reason = 0
    · simp only [hr, if_true]
      exact Consistent_of_sub w _ hc rfl (fun id' m h => Delete_sub _ _ _ _ h)
    · simpa [hr] using hc

theorem run_consistent (ops : List Op) :
    ∀ w : World, Consistent w → ShowsUnregistered ops w → Consistent (run ops w).world := by
  induction ops with
  | nil => intro w hc _; simpa [run, Result.world] using hc
  | cons op ops ih =>
    intro w hc hadm
    obtain ⟨h1, h2⟩ := hadm
    have hs := step_consistent w op hc h1
    unfold run
    cases hstep : step w op with
    | returned w' =>
      rw [hstep] at hs h2
      exact ih w' hs h2
    | panicked w' =>
      rw [hstep] at hs
      exact hs

/-- C10, as amended: starting from an empty registry, after any sequence of `Show`,
`Cancel`, Activation and Dismissal calls in which no successful native show with
identifier `id` happens for an entity that has, at that moment, a registry entry under
another identifier, every entry `id -> n` of the registry has `n.systemID = id`; and then
`Cancel` on any entity leaves no entry that refers to it. -/
theorem registry_consistent (ops : List Op) (w : World)
    (hempty : ∀ id, w.notificationsByIDs id = none) (hadm : ShowsUnregistered ops w) :
    Consistent (run ops w).world ∧
      ∀ env hide n id,
        (Cancel env hide n (run ops w).world).notificationsByIDs id ≠ some n := by
  have hc : Consistent (run ops w).world :=
    run_consistent ops w (fun id n h => by simp [hempty id] at h) hadm
  refine ⟨hc, ?_⟩
  intro env hide n id h
  rw [(Cancel_fields env hide n _).2] at h
  have h' := Delete_sub _ _ _ _ h
  have hid := hc id n h'
  rw [hid] at h
  simp at h

/-- C10 as amended, at a concrete input: two entities are shown under 1 and 2, the first
one is activated on its second button. -/
theorem registry_consistent_witness :
    (∀ id, (World.fresh exampleHeap).notificationsByIDs id = none) ∧
      ShowsUnregistered
        [.callShow envOk (nativeOk 1) 0, .callShow envOk (nativeOk 2) 1, .activated 1 1]
        (World.fresh exampleHeap) ∧
      Consistent (run
        [.callShow envOk (nativeOk 1) 0, .callShow envOk (nativeOk 2) 1, .activated 1 1]
        (World.fresh exampleHeap)).world :=
  have he : ∀ id, (World.fresh exampleHeap).notificationsByIDs id = none := fun _ => rfl
  have ha : ShowsUnregistered
      [.callShow envOk (nativeOk 1) 0, .callShow envOk (nativeOk 2) 1, .activated 1 1]
      (World.fresh exampleHeap) := by
    refine ⟨?_, ?_, ?_, ?_⟩
    · intro id id' _ h
      simp [World.fresh, SyncMap.empty] at h
    · intro id id' _ h
      have hs := (Show_show_ok envOk (nativeOk 1) 0 (World.fresh exampleHeap) _ 1 rfl rfl).2
      rw [hs] at h
      by_cases h1 : id' = 1
      · subst h1; simp at h
      · rw [SyncMap.Store_other _ _ _ _ h1] at h
        simp [World.fresh, SyncMap.empty] at h
    · trivial
    · trivial
  ⟨he, ha, (registry_consistent _ _ he ha).1⟩

/-- C10 as stated fails: a fresh process shows entity 0 twice and the native side answers
1 and then 2. The registry keeps the entry `1 -> 0` while entity 0 has `systemID = 2`, and
`Cancel` on entity 0 leaves that entry in place. -/
theorem reshown_entity_keeps_stale_entry :
    (run [.callShow envOk (nativeOk 1) 0, .callShow envOk (nativeOk 2) 0]
        (World.fresh exampleHeap)).world.notificationsByIDs 1 = some 0 ∧
      ((run [.callShow envOk (nativeOk 1) 0, .callShow envOk (nativeOk 2) 0]
        (World.fresh exampleHeap)).world.heap 0).systemID = 2 ∧
      ¬ Consistent (run [.callShow envOk (nativeOk 1) 0, .callShow envOk (nativeOk 2) 0]
        (World.fresh exampleHeap)).world ∧
      (Cancel envOk none 0 (run [.callShow envOk (nativeOk 1) 0, .callShow envOk (nativeOk 2) 0]
        (World.fresh exampleHeap)).world).notificationsByIDs 1 = some 0 := by
  refine ⟨by rfl, by rfl, ?_, by rfl⟩
  intro hc
  have h := hc 1 0 (by rfl)
  revert h
  decide

/-! ## Calls that race for the same identifier -/

theorem getLibOnce_selections (env : Env) (w : World) :
    selections (getLibOnce env w).trace = selections w.trace := by
  unfold getLibOnce selections
  repeat' split
  all_goals simp [List.filter_append, Event.isSelectAction]

theorem getLib_selections (env : Env) (w : World) :
    selections (getLib env w).1.trace = selections w.trace := by
  unfold getLib
  by_cases h : w.initOnce = true
  · simp [h]
  · have := getLibOnce_selections env w
    simpa [h, selections] using this

theorem Cancel_selections (env : Env) (hide : Option String) (n : Ref) (w : World) :
    selections (Cancel env hide n w).trace = selections w.trace := by
  have hg := getLib_selections env w
  unfold Cancel HideNotification
  cases hl : (getLib env w).2 with
  | none => simpa [hl] using hg
  | some l =>
    simp only [hl]
    simpa [selections, List.filter_append, Event.isSelectAction] using hg

theorem refersTo_congr (w w' : World) (id : NotificationID) (op : Op) (h : w'.heap = w.heap) :
    op.refersTo w' id = op.refersTo w id := by
  cases op <;> simp [Op.refersTo, h]

/-- A call that refers to `id` and does not reach a removal returns without any effect. -/
theorem step_not_removing (w : World) (id : NotificationID) (op : Op)
    (href : op.refersTo w id = true) (hrem : op.removes = false) :
    step w op = .returned w := by
  cases op with
  | callShow env o n => simp [Op.refersTo] at href
  | callCancel env hide n => simp [Op.removes] at hrem
  | activated id' i => simp [Op.removes] at hrem
  | dismissed id' reason =>
    have hr : reason ≠ 0 := by simpa [Op.removes] using hrem
    simp [step, notificationDismissedCallback, hr]

/-- A call that refers to `id` and reaches a removal leaves no entry for `id`, changes no
entity and invokes `SelectAction` at most once. -/
theorem step_removing (w : World) (id : NotificationID) (op : Op)
    (href : op.refersTo w id = true) (hrem : op.removes = true) :
    (step w op).world.notificationsByIDs id = none ∧
      (step w op).world.heap = w.heap ∧
      selections (step w op).world.trace ≤ selections w.trace + 1 := by
  cases op with
  | callShow env o n => simp [Op.refersTo] at href
  | callCancel env hide n =>
    have hid : (w.heap n).systemID = id := by simpa [Op.refersTo] using href
    obtain ⟨h1, h2⟩ := Cancel_fields env hide n w
    refine ⟨?_, h1, ?_⟩
    · simp only [step, Result.world]
      rw [h2, hid]
      simp
    · simp only [step, Result.world]
      rw [Cancel_selections]
      omega
  | activated id' i =>
    have hid : id' = id := by simpa [Op.refersTo] using href
    subst hid
    refine ⟨activated_removes id' i w, (activated_fields id' i w).1, ?_⟩
    simp only [step]
    by_cases hi : i = -1
    · subst hi
      rw [activated_body]
      simp [Result.world, selections, List.filter_append, Event.isSelectAction]
    · cases hreg : w.notificationsByIDs id' with
      | none => rw [activated_absent id' i w hi hreg]; simp [Result.world]
      | some m =>
        rw [activated_present id' i w m hi hreg]
        cases index (w.heap m).AvailableActions i <;>
          simp [Result.world, SelectAction, selections, List.filter_append,
            Event.isSelectAction]
  | dismissed id' reason =>
    have hid : id' = id := by simpa [Op.refersTo] using href
    have hr : reason = 0 := by simpa [Op.removes] using hrem
    subst hid hr
    simp [step, Result.world, notificationDismissedCallback]

/-- A call that refers to `id` while `id` has no entry changes neither the registry nor any
entity and invokes no `SelectAction`. -/
theorem step_not_found (w : World) (id : NotificationID) (op : Op)
    (href : op.refersTo w id = true) (habs : w.notificationsByIDs id = none) :
    (∃ w', step w op = .returned w') ∧
      (step w op).world.notificationsByIDs = w.notificationsByIDs ∧
      (step w op).world.heap = w.heap ∧
      selections (step w op).world.trace = selections w.trace := by
  cases op with
  | callShow env o n => simp [Op.refersTo] at href
  | callCancel env hide n =>
    have hid : (w.heap n).systemID = id := by simpa [Op.refersTo] using href
    obtain ⟨h1, h2⟩ := Cancel_fields env hide n w
    refine ⟨⟨_, rfl⟩, ?_, h1, ?_⟩
    · simp only [step, Result.world]
      rw [h2, hid, SyncMap.Delete_absent _ _ habs]
    · simp only [step, Result.world]
      exact Cancel_selections env hide n w
  | activated id' i =>
    have hid : id' = id := by simpa [Op.refersTo] using href
    subst hid
    simp only [step]
    by_cases hi : i = -1
    · subst hi
      rw [activated_body]
      simp [Result.world, selections, List.filter_append, Event.isSelectAction,
        SyncMap.Delete_absent _ _ habs]
    · rw [activated_absent id' i w hi habs]
      simp [Result.world]
  | dismissed id' reason =>
    have hid : id' = id := by simpa [Op.refersTo] using href
    subst hid
    by_cases hr : reason = 0
    · simp [step, Result.world, notificationDismissedCallback, hr,
        SyncMap.Delete_absent _ _ habs]
    · simp [step, Result.world, notificationDismissedCallback, hr]

/-- After the removal: no further call removes, mutates or selects. -/
theorem run_not_found (id : NotificationID) (ops : List Op) :
    ∀ w : World, w.notificationsByIDs id = none → (∀ op ∈ ops, op.refersTo w id = true) →
      removals id ops w = 0 ∧
        finds id ops w = 0 ∧
        (run ops w).world.notificationsByIDs = w.notificationsByIDs ∧
        (run ops w).world.heap = w.heap ∧
        selections (run ops w).world.trace = selections w.trace := by
  induction ops with
  | nil => intro w _ _; simp [removals, finds, run, Result.world]
  | cons op ops ih =>
    intro w habs href
    obtain ⟨⟨w', hw'⟩, h1, h2, h3⟩ :=
      step_not_found w id op (href op (List.mem_cons_self _ _)) habs
    rw [hw'] at h1 h2 h3
    simp only [Result.world] at h1 h2 h3
    have habs' : w'.notificationsByIDs id = none := by rw [h1]; exact habs
    have href' : ∀ op' ∈ ops, op'.refersTo w' id = true := fun op' hop' => by
      rw [refersTo_congr w w' id op' h2]
      exact href op' (List.mem_cons_of_mem _ hop')
    obtain ⟨r1, r0, r2, r3, r4⟩ := ih w' habs' href'
    have heff : effectiveRemoval id w op = false := by simp [effectiveRemoval, habs]
    have hfind : findsEntry id w op = false := by simp [findsEntry, habs]
    refine ⟨?_, ?_, ?_, ?_, ?_⟩
    · simp [removals, heff, hw', r1]
    · simp [finds, hfind, hw', r0]
    · simp only [run, hw']; rw [r2, h1]
    · simp only [run, hw']; rw [r3, h2]
    · simp only [run, hw']; rw [r4, h3]

/-- Until the first call that reaches a removal nothing changes; that call performs the
removal; the calls after it find nothing. -/
theorem run_registered (id : NotificationID) (ops : List Op) :
    ∀ w : World, (w.notificationsByIDs id).isSome = true →
      (∀ op ∈ ops, op.refersTo w id = true) → (∃ op ∈ ops, op.removes = true) →
      removals id ops w = 1 ∧
        finds id ops w = 1 ∧
        (run ops w).world.notificationsByIDs id = none ∧
        (run ops w).world.heap = w.heap ∧
        selections (run ops w).world.trace ≤ selections w.trace + 1 := by
  induction ops with
  | nil => intro w _ _ hrem; obtain ⟨op, hop, -⟩ := hrem; simp at hop
  | cons op ops ih =>
    intro w hreg href hrem
    have hop := href op (List.mem_cons_self _ _)
    cases hr : op.removes with
    | false =>
      have hstep := step_not_removing w id op hop hr
      have hrem' : ∃ op' ∈ ops, op'.removes = true := by
        obtain ⟨op', hop', hr'⟩ := hrem
        rcases List.mem_cons.1 hop' with h | h
        · subst h; rw [hr] at hr'; simp at hr'
        · exact ⟨op', h, hr'⟩
      obtain ⟨r1, r0, r2, r3, r4⟩ :=
        ih w hreg (fun op' hop' => href op' (List.mem_cons_of_mem _ hop')) hrem'
      have heff : effectiveRemoval id w op = false := by
        cases hx : w.notificationsByIDs id with
        | none => simp [hx] at hreg
        | some m => simp [effectiveRemoval, hstep, Result.world, hx]
      have hfind : findsEntry id w op = false := by simp [findsEntry, hr]
      refine ⟨?_, ?_, ?_, ?_, ?_⟩
      · simp [removals, heff, hstep, r1]
      · simp [finds, hfind, hstep, r0]
      · simp only [run, hstep]; exact r2
      · simp only [run, hstep]; exact r3
      · simp only [run, hstep]; exact r4
    | true =>
      obtain ⟨s1, s2, s3⟩ := step_removing w id op hop hr
      have heff : effectiveRemoval id w op = true := by
        simp [effectiveRemoval, hreg, s1]
      have hfind : findsEntry id w op = true := by simp [findsEntry, hr, hreg]
      cases hstep : step w op with
      | panicked w' =>
        rw [hstep] at s1 s2 s3
        simp only [Result.world] at s1 s2 s3
        refine ⟨?_, ?_, ?_, ?_, ?_⟩
        · simp [removals, heff, hstep]
        · simp [finds, hfind, hstep]
        · simp only [run, hstep, Result.world]; exact s1
        · simp only [run, hstep, Result.world]; exact s2
        · simp only [run, hstep, Result.world]; exact s3
      | returned w' =>
        rw [hstep] at s1 s2 s3
        simp only [Result.world] at s1 s2 s3
        have href' : ∀ op' ∈ ops, op'.refersTo w' id = true := fun op' hop' => by
          rw [refersTo_congr w w' id op' s2]
          exact href op' (List.mem_cons_of_mem _ hop')
        obtain ⟨r1, r0, r2, r3, r4⟩ := run_not_found id ops w' s1 href'
        refine ⟨?_, ?_, ?_, ?_, ?_⟩
        · simp [removals, heff, hstep, r1]
        · simp [finds, hfind, hstep, r0]
        · simp only [run, hstep]; rw [r2]; exact s1
        · simp only [run, hstep]; rw [r3]; exact s2
        · simp only [run, hstep]; rw [r4]; exact s3

/-- C4, as amended: let `id` be registered and let every call of a sequence be an
Activation, a Dismissal or a `Cancel` that refers to `id`, at least one of them not a
Dismissal with a reason other than 0. Then exactly one call performs the effective removal
of the entry, and it is the only call whose registry operation finds the entry: every
other call finds nothing or is a Dismissal with a reason other than 0, which does not
touch the registry. At the end `id` has no entry, no entity has changed, and
`SelectAction` has been invoked at most once. -/
theorem one_effective_removal (id : NotificationID) (n : Ref) (ops : List Op) (w : World)
    (hreg : w.notificationsByIDs id = some n)
    (href : ∀ op ∈ ops, op.refersTo w id = true)
    (hrem : ∃ op ∈ ops, op.removes = true) :
    removals id ops w = 1 ∧
      finds id ops w = 1 ∧
      (run ops w).world.notificationsByIDs id = none ∧
      (run ops w).world.heap = w.heap ∧
      selections (run ops w).world.trace ≤ selections w.trace + 1 :=
  run_registered id ops w (by simp [hreg]) href hrem

/-- C4 as amended, at a concrete input: entity 0 is registered under 42; a Dismissal with
reason 1, an Activation of button 1, a `Cancel` and a Dismissal with reason 0 follow. -/
theorem one_effective_removal_witness :
    worldShown.notificationsByIDs 42 = some 0 ∧
      (∀ op ∈ [Op.dismissed 42 1, .activated 42 1, .callCancel envOk none 0, .dismissed 42 0],
        op.refersTo worldShown 42 = true) ∧
      removals 42 [.dismissed 42 1, .activated 42 1, .callCancel envOk none 0, .dismissed 42 0]
        worldShown = 1 ∧
      selections (run [.dismissed 42 1, .activated 42 1, .callCancel envOk none 0,
        .dismissed 42 0] worldShown).world.trace ≤ selections worldShown.trace + 1 :=
  have href : ∀ op ∈ [Op.dismissed 42 1, .activated 42 1, .callCancel envOk none 0,
      .dismissed 42 0], op.refersTo worldShown 42 = true := by
    intro op hop
    simp only [List.mem_cons, List.mem_singleton, List.not_mem_nil, or_false] at hop
    rcases hop with h | h | h | h <;> subst h <;> rfl
  have h := one_effective_removal 42 0 _ worldShown rfl href
    ⟨.activated 42 1, by simp, rfl⟩
  ⟨rfl, href, h.1, h.2.2.2.2⟩

/-- C4 as stated fails: entity 0 is registered under 42 and the sequence is the single
call `Dismissal(42, 1)`. It refers to 42, and no call performs a removal: the entry is
still there. -/
theorem dismissal_with_other_reason_removes_nothing :
    worldShown.notificationsByIDs 42 = some 0 ∧
      (Op.dismissed 42 1).refersTo worldShown 42 = true ∧
      removals 42 [.dismissed 42 1] worldShown = 0 ∧
      (run [.dismissed 42 1] worldShown).world.notificationsByIDs 42 = some 0 := by
  refine ⟨by rfl, by rfl, by rfl, by rfl⟩

end Notifier
